import Mathlib

/-!
Verification of the mymemo persistence backend.

Shallow embedding of `src/src-tauri/src/lib.rs`: the in-memory memo store,
the CRUD commands (`create_memo`, `update_memo`, `delete_memo`), the flush
machinery (`schedule_save`, `save_immediately`), startup loading
(`load_memos_from_file`) and the JSON encoding of the data model.

Modelling conventions:
* Rust `u64` timestamps become `Nat` (the code only stores and copies them,
  no wrap-around arithmetic occurs).
* Rust `f64` window coordinates become `Rat`; the code never computes with
  them, it only stores them and passes them through serde_json, whose
  float text layer is value-faithful and is treated as an external
  collaborator (the spec declares the on-disk encoding opaque).
* External I/O outcomes (the result of `fs::write`/serde encoding inside
  `save_memos_to_file`, the readability of the durable file) are explicit
  parameters of the embedded functions.
* The shared `AtomicBool` save-pending flag becomes an explicit `Bool`
  threaded through the functions that touch it; the detached debounce
  timer threads are modelled by a discrete event system (`SchedState`).
-/

namespace MyMemo

/-- Rust struct `WindowState` (lib.rs lines 19-28): per-note window
placement. `f64` coordinates are modelled as `Rat`. -/
structure WindowState where
  is_open : Bool
  x : Rat
  y : Rat
  width : Rat
  height : Rat
  always_on_top : Bool
deriving DecidableEq, Repr

/-- Rust struct `Memo` (lib.rs lines 31-40): one note. `updated_at` is the
last-modified timestamp in milliseconds; `window` is the optional window
placement, omitted from serialization when `none`. -/
structure Memo where
  id : String
  title : String
  content : String
  color : String
  updated_at : Nat
  window : Option WindowState
deriving DecidableEq, Repr

/-- Rust struct `MemoUpdate` (lib.rs lines 44-49): partial update; a `none`
field means "leave unchanged". -/
structure MemoUpdate where
  title : Option String
  content : Option String
  color : Option String
  window : Option WindowState
deriving DecidableEq, Repr

/-- Rust enum `MemoEvent` (lib.rs lines 54-59): change notification sent to
the UI after a successful mutation. -/
inductive MemoEvent
  | created (memo : Memo)
  | updated (memo : Memo)
  | deleted (id : String)
  | reloaded (memos : List Memo)
deriving DecidableEq, Repr

/-- Rust struct `AppState` (lib.rs lines 65-68): the memo list guarded by the
mutex, plus the atomic `save_pending` flag. -/
structure AppState where
  memos : List Memo
  savePending : Bool
deriving DecidableEq, Repr

/-- Result of one command invocation: the value returned to the caller, the
application state afterwards, whether `schedule_save` was called
(`scheduled`) and whether that call spawned a new deferred task (`spawned`),
whether a synchronous disk write was attempted (`wrote`), and the emitted
notification, if any. -/
structure CmdOut (α : Type) where
  result : Except String α
  state : AppState
  scheduled : Bool
  spawned : Bool
  wrote : Bool
  event : Option MemoEvent

/-- Function `schedule_save` (lib.rs lines 125-140): `save_pending.swap(true)` and a
new deferred task is spawned only when the old value was `false`. Returns
(new flag value, whether a task was spawned). The flag is `true` afterwards
in every case. -/
def schedule_save (savePending : Bool) : Bool × Bool :=
  if savePending then (true, false) else (true, true)

/-- Function `save_immediately` (lib.rs lines 143-148): writes the current snapshot;
`writeResult` stands for the outcome of `save_memos_to_file` on that
snapshot (external I/O). On success the flag is stored `false`; on failure
the `?` operator returns early and the flag is left untouched. Returns
(flag afterwards, result returned to the caller). -/
def save_immediately (savePending : Bool) (writeResult : Except String Unit) :
    Bool × Except String Unit :=
  match writeResult with
  | .ok _ => (false, .ok ())
  | .error e => (savePending, .error e)

/-- Command `load_memos` (lib.rs lines 159-161): clone of the store. -/
def load_memos (st : AppState) : List Memo :=
  st.memos

/-- Command `get_memo` (lib.rs lines 165-167): first memo with the given id. -/
def get_memo (st : AppState) (id : String) : Option Memo :=
  st.memos.find? (fun m => m.id == id)

/-- Command `create_memo` (lib.rs lines 171-184): prepends the
caller-supplied memo verbatim (`memos.insert(0, memo.clone())` — no clock is
read and no uniqueness check is performed), calls `schedule_save`, emits
`Created` and returns the memo unchanged. -/
def create_memo (st : AppState) (memo : Memo) : CmdOut Memo :=
  let sched := schedule_save st.savePending
  { result := .ok memo
    state := { memos := memo :: st.memos, savePending := sched.1 }
    scheduled := true
    spawned := sched.2
    wrote := false
    event := some (.created memo) }

/-- Body of the `Some(m)` arm of `update_memo` (lib.rs lines 202-217):
overwrite exactly the fields supplied by the partial update, then stamp
`updated_at` with the current time `now`. -/
def applyUpdate (u : MemoUpdate) (now : Nat) (m : Memo) : Memo :=
  { id := m.id
    title := u.title.getD m.title
    content := u.content.getD m.content
    color := u.color.getD m.color
    updated_at := now
    window := match u.window with
      | some w => some w
      | none => m.window }

/-- Model of `memos.iter_mut().find(|m| m.id == id)` followed by the in-place update
(lib.rs line 198): rewrites the first memo whose id matches, returning the
new list and the updated memo, or `none` when no memo matches. -/
def updateFirst (id : String) (u : MemoUpdate) (now : Nat) :
    List Memo → Option (List Memo × Memo)
  | [] => none
  | m :: ms =>
    if m.id == id then
      some (applyUpdate u now m :: ms, applyUpdate u now m)
    else
      match updateFirst id u now ms with
      | some (ms', um) => some (m :: ms', um)
      | none => none

/-- Command `update_memo` (lib.rs lines 188-231): on a match, mutate the
fields present in the update, refresh the timestamp to `now`, call
`schedule_save` and emit `Updated`; on no match, return the NotFound error
before any scheduling or notification. -/
def update_memo (st : AppState) (id : String) (u : MemoUpdate) (now : Nat) :
    CmdOut Memo :=
  match updateFirst id u now st.memos with
  | some (memos', um) =>
    let sched := schedule_save st.savePending
    { result := .ok um
      state := { memos := memos', savePending := sched.1 }
      scheduled := true
      spawned := sched.2
      wrote := false
      event := some (.updated um) }
  | none =>
    { result := .error ("Memo not found: " ++ id)
      state := st
      scheduled := false
      spawned := false
      wrote := false
      event := none }

/-- Command `delete_memo` (lib.rs lines 235-252): `retain` drops every memo
with the given id; if nothing was dropped, NotFound is returned. Otherwise
`save_immediately(&state)?` runs — `writeResult` stands for the disk
outcome — and a write failure is propagated by `?` before the `Deleted`
event is emitted. -/
def delete_memo (st : AppState) (id : String) (writeResult : Except String Unit) :
    CmdOut Unit :=
  let remaining := st.memos.filter (fun m => !(m.id == id))
  if remaining.length = st.memos.length then
    { result := .error ("Memo not found: " ++ id)
      state := { memos := remaining, savePending := st.savePending }
      scheduled := false
      spawned := false
      wrote := false
      event := none }
  else
    let saved := save_immediately st.savePending writeResult
    match saved.2 with
    | .ok _ =>
      { result := .ok ()
        state := { memos := remaining, savePending := saved.1 }
        scheduled := false
        spawned := false
        wrote := true
        event := some (.deleted id) }
    | .error e =>
      { result := .error e
        state := { memos := remaining, savePending := saved.1 }
        scheduled := false
        spawned := false
        wrote := true
        event := none }

/-- How the durable file presents itself to `load_memos_from_file`
(lib.rs lines 96-107): absent, present but unreadable
(`fs::read_to_string` fails), or readable with some textual content. -/
inductive FileState
  | absent
  | unreadable
  | readable (content : String)
deriving DecidableEq, Repr

/-- Function `load_memos_from_file` (lib.rs lines 96-107): decode the file content
with `serde_json::from_str` — an external decoder, passed here as the
parameter `decode` — and fall back to the empty list (`unwrap_or_default`)
on decode failure, on read failure, and when the file does not exist. -/
def load_memos_from_file (fs : FileState) (decode : String → Option (List Memo)) :
    List Memo :=
  match fs with
  | .absent => []
  | .unreadable => []
  | .readable c => (decode c).getD []

/-!
Section: Discrete event model of the flush scheduler

The flag-relevant concurrency of lib.rs is a handful of atomic steps:
a `schedule_save` call (lines 125-140), the completion of a spawned
deferred task's body (lines 130-137: sleep, snapshot, write, then
`save_pending.store(false)` unconditionally), and a `save_immediately`
call that either succeeds (clears the flag, line 146) or fails (early
return, flag untouched). `timers` counts spawned deferred tasks that have
not yet completed.
-/

/-- Scheduler state: the shared `save_pending` flag and the number of
spawned, not-yet-completed deferred flush tasks. -/
structure SchedState where
  savePending : Bool
  timers : Nat
deriving DecidableEq, Repr

/-- One atomic scheduler-relevant step of the program. -/
inductive SchedEvent
  | schedule
  | timerComplete
  | immediateOk
  | immediateFail
deriving DecidableEq, Repr

/-- Effect of one step on the scheduler state, read off lib.rs:
`schedule` spawns a timer only when the swap found the flag unset;
`timerComplete` (the tail of the spawned closure) clears the flag whether
or not its write succeeded; `immediateOk` clears the flag; `immediateFail`
returns early without touching it. -/
def schedStep (st : SchedState) : SchedEvent → SchedState
  | .schedule =>
    if st.savePending then st
    else { savePending := true, timers := st.timers + 1 }
  | .timerComplete =>
    match st.timers with
    | 0 => st
    | n + 1 => { savePending := false, timers := n }
  | .immediateOk => { savePending := false, timers := st.timers }
  | .immediateFail => st

/-- Run a sequence of scheduler events from a state. -/
def schedRun (st : SchedState) (es : List SchedEvent) : SchedState :=
  es.foldl schedStep st

/-- Scheduler state at process start: flag cleared, no timers. -/
def schedInit : SchedState := { savePending := false, timers := 0 }

/-!
Section: JSON value model

`save_memos_to_file` (lib.rs lines 109-121) encodes the memo list with
`serde_json::to_string` and `load_memos_from_file` decodes with
`serde_json::from_str`. The spec declares the textual format opaque, and
serde_json's text layer parses back exactly the value tree it printed, so
the encoding is modelled at the JSON value-tree level: `encodeMemos`
mirrors the `Serialize` derive (field order, `rename` attributes,
`skip_serializing_if = "Option::is_none"` on `window`), `decodeMemos` the
`Deserialize` derive (lookup by field name, `Option` field absent or null
means `none`). -/
inductive Json
  | null
  | bool (b : Bool)
  | num (q : Rat)
  | str (s : String)
  | arr (elems : List Json)
  | obj (fields : List (String × Json))
deriving Repr

/-- Field lookup in a JSON object, first occurrence. -/
def jLookup (fields : List (String × Json)) (key : String) : Option Json :=
  match fields.find? (fun kv => kv.1 == key) with
  | some kv => some kv.2
  | none => none

/-- Deserialize a JSON value as a Rust `String`. -/
def asStr : Json → Option String
  | .str s => some s
  | _ => none

/-- Deserialize a JSON value as a Rust `bool`. -/
def asBool : Json → Option Bool
  | .bool b => some b
  | _ => none

/-- Deserialize a JSON value as a Rust `f64` (modelled as `Rat`). -/
def asNum : Json → Option Rat
  | .num q => some q
  | _ => none

/-- Deserialize a JSON value as a Rust `u64`: the number must be a
non-negative integer. -/
def asNat : Json → Option Nat
  | .num q => if q.den = 1 ∧ 0 ≤ q.num then some q.num.toNat else none
  | _ => none

/-- Serialization of `WindowState` (serde derive with `rename` attributes,
declaration order). -/
def encodeWindow (w : WindowState) : Json :=
  .obj [("isOpen", .bool w.is_open), ("x", .num w.x), ("y", .num w.y),
        ("width", .num w.width), ("height", .num w.height),
        ("alwaysOnTop", .bool w.always_on_top)]

/-- Deserialization of `WindowState`: every field required, looked up by
its serialized name. -/
def decodeWindow (j : Json) : Option WindowState :=
  match j with
  | .obj fs => do
    let is_open ← jLookup fs "isOpen" >>= asBool
    let x ← jLookup fs "x" >>= asNum
    let y ← jLookup fs "y" >>= asNum
    let width ← jLookup fs "width" >>= asNum
    let height ← jLookup fs "height" >>= asNum
    let always_on_top ← jLookup fs "alwaysOnTop" >>= asBool
    pure { is_open := is_open, x := x, y := y, width := width,
           height := height, always_on_top := always_on_top }
  | _ => none

/-- Serialization of `Memo`: declaration order, `updatedAt` renamed, and
the `window` key omitted entirely when the option is `none`. -/
def encodeMemo (m : Memo) : Json :=
  .obj ([("id", .str m.id), ("title", .str m.title),
         ("content", .str m.content), ("color", .str m.color),
         ("updatedAt", .num (m.updated_at : Rat))] ++
        (match m.window with
         | some w => [("window", encodeWindow w)]
         | none => []))

/-- serde's deserialization of an `Option<WindowState>` field: key absent
or null means `none`; anything else must deserialize as a `WindowState`. -/
def decodeOptWindow : Option Json → Option (Option WindowState)
  | none => some none
  | some .null => some none
  | some jw => (decodeWindow jw).map some

/-- Deserialization of `Memo`: required fields looked up by name; the
`Option<WindowState>` field yields `none` when the key is absent or null,
and otherwise must deserialize. -/
def decodeMemo (j : Json) : Option Memo :=
  match j with
  | .obj fs => do
    let id ← jLookup fs "id" >>= asStr
    let title ← jLookup fs "title" >>= asStr
    let content ← jLookup fs "content" >>= asStr
    let color ← jLookup fs "color" >>= asStr
    let updated_at ← jLookup fs "updatedAt" >>= asNat
    let window ← decodeOptWindow (jLookup fs "window")
    pure { id := id, title := title, content := content, color := color,
           updated_at := updated_at, window := window }
  | _ => none

/-- Serialization of `Vec<Memo>`: a JSON array, order preserved. -/
def encodeMemos (ms : List Memo) : Json :=
  .arr (ms.map encodeMemo)

/-- serde's sequence visitor: every element must deserialize, order kept. -/
def decodeMemoList : List Json → Option (List Memo)
  | [] => some []
  | j :: js => do
    let m ← decodeMemo j
    let ms ← decodeMemoList js
    pure (m :: ms)

/-- Deserialization of `Vec<Memo>`: a JSON array whose elements all
deserialize. -/
def decodeMemos (j : Json) : Option (List Memo) :=
  match j with
  | .arr elems => decodeMemoList elems
  | _ => none

/-!
Section: Sample data for concrete evaluations
-/

/-- A sample memo with identity "a". -/
def memoA : Memo :=
  { id := "a", title := "t", content := "c", color := "yellow",
    updated_at := 0, window := none }

/-- A second memo that reuses identity "a". -/
def memoA2 : Memo :=
  { id := "a", title := "t2", content := "c2", color := "pink",
    updated_at := 5, window := none }

/-- A sample window placement. -/
def winB : WindowState :=
  { is_open := true, x := 10, y := 20, width := 300, height := 350,
    always_on_top := false }

/-- A sample memo with identity "b" carrying a window placement. -/
def memoB : Memo :=
  { id := "b", title := "u", content := "d", color := "blue",
    updated_at := 1, window := some winB }

/-- A sample memo whose caller-chosen timestamp is 123. -/
def memoT123 : Memo :=
  { id := "x", title := "t", content := "c", color := "yellow",
    updated_at := 123, window := none }

/-!
Section: Helper lemmas
-/

/-- Function `applyUpdate` never changes the identity. -/
theorem applyUpdate_id (u : MemoUpdate) (now : Nat) (m : Memo) :
    (applyUpdate u now m).id = m.id := rfl

/-- When no memo matches the id, the in-place find-and-update finds
nothing. -/
theorem updateFirst_eq_none (id : String) (u : MemoUpdate) (now : Nat) :
    ∀ ms : List Memo, (∀ m ∈ ms, m.id ≠ id) → updateFirst id u now ms = none := by
  intro ms
  induction ms with
  | nil => intro _; rfl
  | cons m ms ih =>
    intro h
    have hm : m.id ≠ id := h m (List.mem_cons_self m ms)
    have hms := ih (fun m' hm' => h m' (List.mem_cons_of_mem m hm'))
    simp [updateFirst, hm, hms]

/-- When the first match sits after a prefix of non-matching memos, the
in-place update rewrites exactly that memo and leaves the prefix and the
suffix untouched. -/
theorem updateFirst_append (id : String) (u : MemoUpdate) (now : Nat)
    (pre post : List Memo) (m : Memo)
    (hpre : ∀ m' ∈ pre, m'.id ≠ id) (hm : m.id = id) :
    updateFirst id u now (pre ++ m :: post) =
      some (pre ++ applyUpdate u now m :: post, applyUpdate u now m) := by
  induction pre with
  | nil => simp [updateFirst, hm]
  | cons p pre ih =>
    have hp : p.id ≠ id := hpre p (List.mem_cons_self p pre)
    have ih' := ih (fun m' h' => hpre m' (List.mem_cons_of_mem p h'))
    simp [updateFirst, hp, ih']

/-- The in-place update preserves the sequence of identities. -/
theorem updateFirst_map_id (id : String) (u : MemoUpdate) (now : Nat) :
    ∀ ms ms' um, updateFirst id u now ms = some (ms', um) →
      ms'.map Memo.id = ms.map Memo.id := by
  intro ms
  induction ms with
  | nil => intro ms' um h; simp [updateFirst] at h
  | cons m ms ih =>
    intro ms' um h
    by_cases hm : m.id = id
    · simp [updateFirst, hm] at h
      simp [← h.1, applyUpdate_id]
    · rcases h' : updateFirst id u now ms with _ | ⟨ms₀, um₀⟩
      · simp [updateFirst, hm, h'] at h
      · simp [updateFirst, hm, h'] at h
        simp [← h.1, ih ms₀ um₀ h']

/-- In every branch, `delete_memo` leaves the store equal to the filtered
list (`retain` has already run when the NotFound check is made). -/
theorem delete_memo_memos (st : AppState) (id : String) (r : Except String Unit) :
    (delete_memo st id r).state.memos =
      st.memos.filter (fun m => !(m.id == id)) := by
  rcases r with _ | e <;>
    simp only [delete_memo, save_immediately] <;> split <;> rfl

/-!
Section: Claim C1 — storage errors during delete's immediate flush
-/

/-- Claim C1, counterexample: deleting the existing memo "a" while the
disk write fails makes `delete_memo` return the storage error, not
success — the claim that the error "is not escalated to the caller" and
that "delete_memo still returns success" is false on the code
(`save_immediately(&state)?` propagates the error). -/
theorem delete_flush_error_escalated_cex :
    (delete_memo { memos := [memoA], savePending := false } "a"
        (.error "disk full")).result ≠ .ok () ∧
    (delete_memo { memos := [memoA], savePending := false } "a"
        (.error "disk full")).result = .error "disk full" := by
  have hres : (delete_memo { memos := [memoA], savePending := false } "a"
      (.error "disk full")).result = .error "disk full" := rfl
  exact ⟨by rw [hres]; intro h; exact Except.noConfusion h, hres⟩

/-- Claim C1, amended: for every delete on an existing identity whose
immediate flush fails with a storage error, the error IS escalated —
`delete_memo` returns it to the caller — while the in-memory removal stays
committed, no `Deleted` event is emitted, and the save-pending flag is
left unchanged. -/
theorem delete_flush_error_escalated (st : AppState) (id e : String)
    (h : ∃ m ∈ st.memos, m.id = id) :
    (delete_memo st id (.error e)).result = .error e ∧
    (delete_memo st id (.error e)).state.memos =
      st.memos.filter (fun m => !(m.id == id)) ∧
    (delete_memo st id (.error e)).state.savePending = st.savePending ∧
    (delete_memo st id (.error e)).event = none := by
  obtain ⟨m, hmem, hid⟩ := h
  have hlt : (st.memos.filter (fun m => !(m.id == id))).length < st.memos.length := by
    refine List.length_filter_lt_length_iff_exists.mpr ⟨m, hmem, ?_⟩
    simp [hid]
  have hne : ¬ (st.memos.filter (fun m => !(m.id == id))).length = st.memos.length :=
    Nat.ne_of_lt hlt
  simp [delete_memo, save_immediately, hne]

/-- Witness for C1's amended theorem at a concrete input. -/
theorem delete_flush_error_escalated_witness :
    (delete_memo { memos := [memoA], savePending := true } "a"
        (.error "boom")).result = .error "boom" ∧
    (delete_memo { memos := [memoA], savePending := true } "a"
        (.error "boom")).state.savePending = true :=
  have h := delete_flush_error_escalated { memos := [memoA], savePending := true }
    "a" "boom" ⟨memoA, by decide, by decide⟩
  ⟨h.1, by rw [h.2.2.1]⟩

/-!
Section: Claim C2 — create's timestamp provenance
-/

/-- Claim C2, counterexample: creating a memo whose caller-supplied
timestamp is 123 stores and returns exactly that timestamp — the service
reads no clock in `create_memo`, so the claim that the timestamp "is set
by the service itself, never taken from the caller-supplied input note"
is false on the code. -/
theorem create_timestamp_from_caller_cex :
    ((create_memo { memos := [], savePending := false } memoT123).state.memos.head?).map
        Memo.updated_at = some 123 ∧
    (create_memo { memos := [], savePending := false } memoT123).result = .ok memoT123 := by
  exact ⟨rfl, rfl⟩

/-- Claim C2, amended: create stores and returns the caller-supplied note
verbatim — identity, fields and timestamp all come from the input; the
service refreshes the timestamp only in `update_memo` (where it becomes
`now`), never in `create_memo`. -/
theorem create_stores_input_verbatim (st : AppState) (m : Memo) :
    (create_memo st m).result = .ok m ∧
    (create_memo st m).state.memos = m :: st.memos ∧
    (create_memo st m).state.memos.head? = some m ∧
    (∀ u now old, (applyUpdate u now old).updated_at = now) := by
  refine ⟨rfl, rfl, rfl, fun _ _ _ => rfl⟩

/-!
Section: Claim C4 — the flag after an immediate flush
-/

/-- Claim C4, counterexample: when the write fails, `save_immediately`
returns with the save-pending flag still set — the claim that the flag is
cleared "whether the underlying write succeeded or failed" is false on
the code (the `?` on `save_memos_to_file` returns before the
`store(false)`). -/
theorem immediate_flush_flag_not_cleared_cex :
    (save_immediately true (.error "disk full")).1 = true := by decide

/-- Claim C4, amended: after an immediate flush the flag is cleared
exactly when the write succeeded; on a write failure `save_immediately`
returns early with the flag unchanged. The deferred flush task, by
contrast, clears the flag regardless of its write's outcome
(`timerComplete` on any state with a live timer). -/
theorem immediate_flush_flag_cleared_iff_success (b : Bool) (e : String) (n : Nat) :
    save_immediately b (.ok ()) = (false, .ok ()) ∧
    save_immediately b (.error e) = (b, .error e) ∧
    schedStep { savePending := b, timers := n + 1 } .timerComplete =
      { savePending := false, timers := n } := by
  exact ⟨rfl, rfl, rfl⟩

/-!
Section: Claim C3 — identity uniqueness
-/

/-- Pairwise-distinct identities in the store. -/
def DistinctIds (ms : List Memo) : Prop :=
  (ms.map Memo.id).Nodup

/-- Claim C3, counterexample: starting from a store holding the single
memo "a", creating another memo that reuses identity "a" yields a store
whose identities are not pairwise distinct — `create_memo` performs no
uniqueness check, so creation does not preserve uniqueness "for every
input" as claimed. -/
theorem create_duplicate_id_cex :
    ¬ DistinctIds (create_memo { memos := [memoA], savePending := false }
        memoA2).state.memos := by
  unfold DistinctIds
  decide

/-- Claim C3, amended: update and delete preserve pairwise-distinct
identities for every input (update rewrites one memo in place keeping its
identity, delete only removes), and create preserves them exactly when
the supplied identity is fresh; `create_memo` itself checks nothing, so a
caller-supplied duplicate identity enters the store. -/
theorem distinct_ids_preserved (st : AppState) (h : DistinctIds st.memos) :
    (∀ id u now, DistinctIds (update_memo st id u now).state.memos) ∧
    (∀ id r, DistinctIds (delete_memo st id r).state.memos) ∧
    (∀ m, (∀ m' ∈ st.memos, m'.id ≠ m.id) →
      DistinctIds (create_memo st m).state.memos) := by
  refine ⟨?_, ?_, ?_⟩
  · intro id u now
    rcases hu : updateFirst id u now st.memos with _ | ⟨ms', um⟩
    · simpa [DistinctIds, update_memo, hu] using h
    · have hmap := updateFirst_map_id id u now st.memos ms' um hu
      simpa [DistinctIds, update_memo, hu, hmap] using h
  · intro id r
    rw [DistinctIds, delete_memo_memos]
    exact h.sublist ((List.filter_sublist st.memos).map Memo.id)
  · intro m hfresh
    have hnotmem : m.id ∉ st.memos.map Memo.id := by
      simp only [List.mem_map, not_exists]
      rintro m' ⟨hm', hid⟩
      exact hfresh m' hm' hid
    simpa [DistinctIds, create_memo, List.nodup_cons, hnotmem] using h

/-- Witness for C3's amended theorem at a concrete input. -/
theorem distinct_ids_preserved_witness :
    DistinctIds (delete_memo { memos := [memoA, memoB], savePending := false }
        "a" (.ok ())).state.memos :=
  (distinct_ids_preserved { memos := [memoA, memoB], savePending := false }
    (by unfold DistinctIds; decide)).2.1 "a" (.ok ())

/-!
Section: Claim C5 — the debounce gate and the number of live timers
-/

/-- Claim C5, counterexample: the trace "mutation arms a timer; a delete's
immediate flush succeeds (clearing the flag while that timer still
sleeps); another mutation arms a second timer" ends with two deferred
flush timers alive at once — the claim that "at most one deferred-flush
timer exists at any time" is false on the code, because a successful
`save_immediately` clears the flag while a spawned timer is still inside
its 500ms sleep. -/
theorem two_timers_cex :
    (schedRun schedInit [.schedule, .immediateOk, .schedule]).timers = 2 := by
  decide

/-- Claim C5, amended: a `schedule_save` call that finds the flag set is a
no-op (flag stays set, no task spawned) and a task is spawned exactly when
the atomic test-and-set finds the flag unset; consequently at most one
deferred timer is alive in any run consisting only of schedule calls and
timer completions — but an interleaved successful immediate flush clears
the flag early and allows a second concurrent timer. -/
theorem schedule_gate (es : List SchedEvent)
    (h : ∀ e ∈ es, e = .schedule ∨ e = .timerComplete) :
    schedule_save true = (true, false) ∧
    schedule_save false = (true, true) ∧
    (schedRun schedInit es).timers ≤ 1 := by
  refine ⟨rfl, rfl, ?_⟩
  suffices hrun : ∀ (es : List SchedEvent) (st : SchedState),
      (∀ e ∈ es, e = .schedule ∨ e = .timerComplete) →
      st.timers ≤ 1 → (st.savePending = false → st.timers = 0) →
      (schedRun st es).timers ≤ 1 by
    exact hrun es schedInit h (by decide) (by decide)
  intro es
  induction es with
  | nil => intro st _ h1 _; exact h1
  | cons e es ih =>
    intro st hall h1 h2
    have he := hall e (List.mem_cons_self e es)
    have hall' := fun e' he' => hall e' (List.mem_cons_of_mem e he')
    have hstep : (schedStep st e).timers ≤ 1 ∧
        ((schedStep st e).savePending = false → (schedStep st e).timers = 0) := by
      rcases he with rfl | rfl
      · by_cases hp : st.savePending
        · constructor
          · simpa [schedStep, hp] using h1
          · simp [schedStep, hp]
        · have h0 : st.timers = 0 := h2 (by simp at hp; exact hp)
          constructor
          · simp [schedStep, hp, h0]
          · simp [schedStep, hp, h0]
      · rcases ht : st.timers with _ | n
        · constructor
          · simp [schedStep, ht]
          · simp [schedStep, ht]
        · have hn : n = 0 := by omega
          constructor
          · simp [schedStep, ht, hn]
          · simp [schedStep, ht, hn]
    exact ih (schedStep st e) hall' hstep.1 hstep.2

/-- Witness for C5's amended theorem at a concrete input. -/
theorem schedule_gate_witness :
    (schedRun schedInit [.schedule, .schedule, .timerComplete, .schedule]).timers ≤ 1 :=
  (schedule_gate [.schedule, .schedule, .timerComplete, .schedule]
    (by decide)).2.2

/-!
Section: Claim C6 — NotFound on absent identities
-/

/-- Claim C6, confirmed: when no memo carries the requested identity, both
`update_memo` and `delete_memo` return the NotFound error, leave the store
and the flag exactly as they were, schedule no debounced flush, attempt no
disk write, and emit no event. -/
theorem absent_id_rejected (st : AppState) (id : String)
    (h : ∀ m ∈ st.memos, m.id ≠ id) :
    (∀ u now,
      (update_memo st id u now).result = .error ("Memo not found: " ++ id) ∧
      (update_memo st id u now).state = st ∧
      (update_memo st id u now).scheduled = false ∧
      (update_memo st id u now).spawned = false ∧
      (update_memo st id u now).wrote = false ∧
      (update_memo st id u now).event = none) ∧
    (∀ r,
      (delete_memo st id r).result = .error ("Memo not found: " ++ id) ∧
      (delete_memo st id r).state = st ∧
      (delete_memo st id r).scheduled = false ∧
      (delete_memo st id r).spawned = false ∧
      (delete_memo st id r).wrote = false ∧
      (delete_memo st id r).event = none) := by
  have hfilter : st.memos.filter (fun m => !(m.id == id)) = st.memos := by
    refine List.filter_eq_self.mpr ?_
    intro m hm
    simp [h m hm]
  constructor
  · intro u now
    have hnone := updateFirst_eq_none id u now st.memos h
    simp [update_memo, hnone]
  · intro r
    simp [delete_memo, hfilter]

/-- Witness for C6 at a concrete input: updating and deleting the absent
identity "zzz" on a store holding memos "a" and "b". -/
theorem absent_id_rejected_witness :
    (update_memo { memos := [memoA, memoB], savePending := false } "zzz"
        { title := some "new", content := none, color := none, window := none }
        99).state = { memos := [memoA, memoB], savePending := false } ∧
    (delete_memo { memos := [memoA, memoB], savePending := false } "zzz"
        (.ok ())).result = .error ("Memo not found: " ++ "zzz") :=
  have h := absent_id_rejected { memos := [memoA, memoB], savePending := false }
    "zzz" (by decide)
  ⟨(h.1 { title := some "new", content := none, color := none, window := none }
      99).2.1,
   (h.2 (.ok ())).1⟩

/-!
Section: Claim C7 — the update frame property
-/

/-- Claim C7, confirmed: a successful update on the (first) memo carrying
the requested identity returns exactly the rewritten memo, replaces only
that memo in the store, keeps its identity, overwrites precisely the
fields supplied by the partial update (absent fields keep their prior
values), stamps the timestamp with the service-chosen `now`, and leaves
every other memo — the prefix before the match and the suffix after it —
untouched. -/
theorem update_frame (st : AppState) (id : String) (u : MemoUpdate) (now : Nat)
    (pre post : List Memo) (m : Memo)
    (hs : st.memos = pre ++ m :: post)
    (hpre : ∀ m' ∈ pre, m'.id ≠ id) (hm : m.id = id) :
    (update_memo st id u now).result = .ok (applyUpdate u now m) ∧
    (update_memo st id u now).state.memos = pre ++ applyUpdate u now m :: post ∧
    (applyUpdate u now m).id = m.id ∧
    (applyUpdate u now m).updated_at = now ∧
    (u.title = none → (applyUpdate u now m).title = m.title) ∧
    (∀ t, u.title = some t → (applyUpdate u now m).title = t) ∧
    (u.content = none → (applyUpdate u now m).content = m.content) ∧
    (∀ c, u.content = some c → (applyUpdate u now m).content = c) ∧
    (u.color = none → (applyUpdate u now m).color = m.color) ∧
    (∀ c, u.color = some c → (applyUpdate u now m).color = c) ∧
    (u.window = none → (applyUpdate u now m).window = m.window) ∧
    (∀ w, u.window = some w → (applyUpdate u now m).window = some w) := by
  have hfind := updateFirst_append id u now pre post m hpre hm
  refine ⟨?_, ?_, rfl, rfl, ?_, ?_, ?_, ?_, ?_, ?_, ?_, ?_⟩
  · simp [update_memo, hs, hfind]
  · simp [update_memo, hs, hfind]
  · intro h; simp [applyUpdate, h]
  · intro t h; simp [applyUpdate, h]
  · intro h; simp [applyUpdate, h]
  · intro c h; simp [applyUpdate, h]
  · intro h; simp [applyUpdate, h]
  · intro c h; simp [applyUpdate, h]
  · intro h; simp [applyUpdate, h]
  · intro w h; simp [applyUpdate, h]

/-- Witness for C7 at a concrete input: recoloring memo "b" in a
two-memo store leaves memo "a" in place and only changes "b"'s color and
timestamp. -/
theorem update_frame_witness :
    (update_memo { memos := [memoA, memoB], savePending := false } "b"
        { title := none, content := none, color := some "green", window := none }
        77).state.memos =
      [memoA, applyUpdate
        { title := none, content := none, color := some "green", window := none }
        77 memoB] ∧
    (applyUpdate
        { title := none, content := none, color := some "green", window := none }
        77 memoB).title = memoB.title :=
  have h := update_frame { memos := [memoA, memoB], savePending := false } "b"
    { title := none, content := none, color := some "green", window := none }
    77 [memoA] [] memoB rfl (by decide) (by decide)
  ⟨h.2.1, h.2.2.2.2.1 rfl⟩

/-!
Section: Claim C8 — startup load never fails
-/

/-- Claim C8, confirmed: startup load returns the decoded sequence when
the file is readable and decodes, and the empty sequence — never an
error — when the file is absent, unreadable, or fails to decode. -/
theorem load_defaults_to_empty (decode : String → Option (List Memo)) :
    load_memos_from_file .absent decode = [] ∧
    load_memos_from_file .unreadable decode = [] ∧
    (∀ c, decode c = none → load_memos_from_file (.readable c) decode = []) ∧
    (∀ c ms, decode c = some ms → load_memos_from_file (.readable c) decode = ms) := by
  refine ⟨rfl, rfl, ?_, ?_⟩
  · intro c h; simp [load_memos_from_file, h]
  · intro c ms h; simp [load_memos_from_file, h]

/-- Witness for C8 at concrete inputs: a decoder that fails on "bad" and
succeeds on "good". -/
theorem load_defaults_to_empty_witness :
    load_memos_from_file (.readable "bad")
        (fun c => if c = "good" then some [memoA] else none) = [] ∧
    load_memos_from_file (.readable "good")
        (fun c => if c = "good" then some [memoA] else none) = [memoA] :=
  have h := load_defaults_to_empty
    (fun c => if c = "good" then some [memoA] else none)
  ⟨h.2.2.1 "bad" (by simp), h.2.2.2 "good" [memoA] (by simp)⟩

/-!
Section: Claim C10 — a window placement can never be cleared
-/

/-- Once a memo's window is `some`, one update step keeps it `some`. -/
theorem applyUpdate_window_isSome (u : MemoUpdate) (now : Nat) (m : Memo)
    (h : m.window.isSome = true) :
    (applyUpdate u now m).window.isSome = true := by
  rcases hw : u.window with _ | w
  · simpa [applyUpdate, hw] using h
  · simp [applyUpdate, hw]

/-- Claim C10, confirmed: the update path replaces the window record only
when the partial update supplies one and leaves it alone otherwise, so no
sequence of updates can take a memo's window from `some` back to `none` —
`MemoUpdate` offers no way to clear it. -/
theorem window_never_cleared (m : Memo) :
    (∀ u now, u.window = none → (applyUpdate u now m).window = m.window) ∧
    (∀ u now w, u.window = some w → (applyUpdate u now m).window = some w) ∧
    (m.window.isSome = true → ∀ us : List (MemoUpdate × Nat),
      ((us.foldl (fun acc p => applyUpdate p.1 p.2 acc) m).window).isSome = true) := by
  refine ⟨?_, ?_, ?_⟩
  · intro u now h; simp [applyUpdate, h]
  · intro u now w h; simp [applyUpdate, h]
  · intro h us
    induction us generalizing m with
    | nil => exact h
    | cons p ps ih =>
      exact ih (applyUpdate p.1 p.2 m) (applyUpdate_window_isSome p.1 p.2 m h)

/-- Witness for C10 at a concrete input: memo "b" keeps a window through
two updates, neither of which supplies a window. -/
theorem window_never_cleared_witness :
    ((([({ title := some "r", content := none, color := none, window := none },
         3),
        ({ title := none, content := some "s", color := none, window := none },
         4)] : List (MemoUpdate × Nat)).foldl
        (fun acc p => applyUpdate p.1 p.2 acc) memoB).window).isSome = true :=
  (window_never_cleared memoB).2.2 (by decide)
    [({ title := some "r", content := none, color := none, window := none }, 3),
     ({ title := none, content := some "s", color := none, window := none }, 4)]

/-!
Section: Claim C9 — disk round-trip
-/

/-- The `u64` timestamp survives the JSON number layer. -/
theorem asNat_natCast (n : Nat) : asNat (.num (n : Rat)) = some n := by
  simp [asNat, Rat.den_natCast, Rat.num_natCast]

/-- A window placement decodes back to itself. -/
theorem decodeWindow_encodeWindow (w : WindowState) :
    decodeWindow (encodeWindow w) = some w := by
  simp [decodeWindow, encodeWindow, jLookup, asBool, asNum]

/-- An encoded window placement is neither absent nor null, so the
optional-field decoder recovers it. -/
theorem decodeOptWindow_encodeWindow (w : WindowState) :
    decodeOptWindow (some (encodeWindow w)) = some (some w) := by
  have h1 : decodeOptWindow (some (encodeWindow w)) =
      (decodeWindow (encodeWindow w)).map some := rfl
  rw [h1, decodeWindow_encodeWindow]
  rfl

/-- A memo decodes back to itself, with or without a window placement. -/
theorem decodeMemo_encodeMemo (m : Memo) : decodeMemo (encodeMemo m) = some m := by
  rcases m with ⟨id, title, content, color, upd, win⟩
  rcases win with _ | w
  · simp [decodeMemo, encodeMemo, jLookup, asStr, asNat_natCast, decodeOptWindow]
  · simp [decodeMemo, encodeMemo, jLookup, asStr, asNat_natCast,
      decodeOptWindow_encodeWindow]

/-- Claim C9, confirmed: for every memo sequence, encoding it the way
`save_memos_to_file` does and decoding the result the way
`load_memos_from_file` does yields the identical sequence — same
identities, same field values including the optional window placement,
same order. -/
theorem encode_decode_roundtrip (ms : List Memo) :
    decodeMemos (encodeMemos ms) = some ms := by
  induction ms with
  | nil => rfl
  | cons m ms ih =>
    have ih' : decodeMemoList (ms.map encodeMemo) = some ms := by
      simpa [decodeMemos, encodeMemos] using ih
    simp [decodeMemos, encodeMemos, decodeMemoList, decodeMemo_encodeMemo, ih']

end MyMemo
